import Mathlib

/-!
Module sys of luax (src/sys/sys.c).

A shallow embedding of the three functions of sys.c (sys_bootstrap, set_string,
luaopen_sys) over a model of the part of the Lua 5.4 C API they call.

Modelling choices.

* A value of the interpreter is a `Value`; tables are reference objects kept in a heap
  that maps a reference to the fields and the metatable of the table.
* The stack of a state is the stack frame of the running C function, top first:
  index -1 is the head of the list.
* Table reads and writes that are not raw follow luaV_finishget and luaV_finishset
  of lvm.c, metamethod chains included.  Calling a metamethod that is a function
  would need the whole interpreter; such calls are answered by a `Host`, over which
  every theorem quantifies.
* A C string is a `String`: the bytes before the terminating zero.  A Lua string may
  hold zero bytes; where C code gets a char pointer into one and no length, as from
  luaL_checkstring, it has the C string `cstr s`, the bytes before the first zero.
* Allocation never fails, the stack has room (LUA_MINSTACK free slots) and
  luaL_checkversion passes.
* The header luax_config.h and the bodies of error (tools.h) and luax_run are not among
  the sources; the three string macros are parameters (`BuildConfig`), the two functions
  are modelled from the specification.
-/

namespace Luax

/-! ## Values -/

/-- Basic types of lua.h (LUA_TNIL .. LUA_TTHREAD). -/
inductive LuaType
  | TNIL | TBOOLEAN | TLIGHTUSERDATA | TNUMBER | TSTRING
  | TTABLE | TFUNCTION | TUSERDATA | TTHREAD
deriving DecidableEq, Repr

/-- Addresses of C functions that can be stored in a Lua value. -/
inductive CFunction
  | sys_bootstrap
  | foreign (addr : Nat)
deriving DecidableEq, Repr

/-- Lua values (TValue).  A float is kept as its bit pattern; no arithmetic is done on it. -/
inductive Value
  | nil
  | boolean (b : Bool)
  | lightuserdata (p : Nat)
  | integer (i : Int)
  | float (bits : Nat)
  | string (s : String)
  | table (ref : Nat)
  | cfunction (f : CFunction)
  | closure (id : Nat)
  | userdata (ref : Nat)
  | thread (id : Nat)
deriving DecidableEq, Repr

/-- Type tag of a value (lua_type on a valid slot). -/
def Value.type : Value → LuaType
  | .nil => .TNIL
  | .boolean _ => .TBOOLEAN
  | .lightuserdata _ => .TLIGHTUSERDATA
  | .integer _ => .TNUMBER
  | .float _ => .TNUMBER
  | .string _ => .TSTRING
  | .table _ => .TTABLE
  | .cfunction _ => .TFUNCTION
  | .closure _ => .TFUNCTION
  | .userdata _ => .TUSERDATA
  | .thread _ => .TTHREAD

/-- Macro ttisfunction. -/
def Value.isFunction (v : Value) : Bool :=
  decide (v.type = .TFUNCTION)

/-- Names of the basic types (lua_typename). -/
def lua_typename : LuaType → String
  | .TNIL => "nil"
  | .TBOOLEAN => "boolean"
  | .TLIGHTUSERDATA => "userdata"
  | .TNUMBER => "number"
  | .TSTRING => "string"
  | .TTABLE => "table"
  | .TFUNCTION => "function"
  | .TUSERDATA => "userdata"
  | .TTHREAD => "thread"

/-! ## Interpreter state -/

/-- A table object: its fields (an absent key reads as nil) and its metatable. -/
structure Table where
  fields : Value → Value
  metatable : Option Nat

/-- The table made by lua_createtable. -/
def Table.empty : Table :=
  { fields := fun _ => Value.nil, metatable := none }

/-- The part of a lua_State seen by sys.c. -/
structure State where
  /-- Stack frame of the running C function, top first. -/
  stack : List Value
  /-- Table objects by reference. -/
  heap : Nat → Table
  /-- Next unused table reference. -/
  nextRef : Nat
  /-- Reference of the table of globals, registry[LUA_RIDX_GLOBALS]. -/
  globals : Nat
  /-- Metatables of full userdata. -/
  udmeta : Nat → Option Nat
  /-- Metatables shared by the values of a basic type, G(L)->mt. -/
  typemt : LuaType → Option Nat

/-- Errors raised through lua_error (a longjmp to the innermost protected call). -/
inductive LuaError
  /-- From luaL_argerror: bad argument number arg, with the extra message. -/
  | argerror (arg : Int) (extramsg : String)
  /-- From luaG_typeerror: attempt to perform the operation on the value. -/
  | optypeerror (op : String) (v : Value)
  /-- From luaG_runerror in luaV_finishget: the index chain is too long. -/
  | indexloop
  /-- From luaG_runerror in luaV_finishset: the newindex chain is too long. -/
  | newindexloop
  /-- An error value thrown by a metamethod. -/
  | thrown (v : Value)
  /-- An API precondition was violated (api_check); undefined in C. -/
  | apicheck
deriving DecidableEq, Repr

/-- What the interpreter around sys.c provides: running a metamethod that is a function,
and the C library formatting of floats. -/
structure Host where
  /-- Function luaT_callTMres: call f with two arguments, one result. -/
  callTMres : Value → Value → Value → State → Except LuaError (Value × State)
  /-- Function luaT_callTM: call f with three arguments, no result. -/
  callTM : Value → Value → Value → Value → State → Except LuaError State
  /-- Macro lua_number2str (snprintf with LUAI_NUMFFORMAT) on the bits of a float. -/
  lua_number2str : Nat → String
  /-- Macro lua_getlocaledecpoint. -/
  decpoint : Char

/-- How a call of a lua_CFunction ends. -/
inductive Outcome
  /-- The function returned n results to its caller. -/
  | returned (L : State) (n : Int)
  /-- A Lua error was raised. -/
  | raised (e : LuaError)
  /-- The process was ended by error of tools.h. -/
  | aborted (what : Option String) (message : String) (L : State)
  /-- Control was handed to luax_run, for good; exe is the C string it was given. -/
  | run (L : State) (exe : String)

/-- The calls of luax_run made during a call, in order. -/
def luaxRunCalls : Outcome → List (State × String)
  | .run L exe => [(L, exe)]
  | _ => []

/-- The exe argument given to luax_run, if luax_run was reached. -/
def exeName : Outcome → Option String
  | .run _ exe => some exe
  | _ => none

/-! ## The Lua API used by sys.c -/

/-- Limit of metamethod chains in lvm.c. -/
def MAXTAGLOOP : Nat := 2000

/-- Position from the top of the stack of an acceptable stack index (index2value);
pseudo-indices are not modelled. -/
def stackPos (L : State) (idx : Int) : Option Nat :=
  if idx < 0 then
    if (-idx).toNat ≤ L.stack.length then some ((-idx).toNat - 1) else none
  else if 0 < idx ∧ idx.toNat ≤ L.stack.length then some (L.stack.length - idx.toNat)
  else none

/-- The value at a stack index. -/
def index2value (L : State) (idx : Int) : Option Value :=
  match stackPos L idx with
  | some p => L.stack.get? p
  | none => none

/-- Push a value (setobj2s and api_incr_top). -/
def push (L : State) (v : Value) : State :=
  { L with stack := v :: L.stack }

/-- Function lua_pushstring with a non-null C string. -/
def lua_pushstring (L : State) (s : String) : State :=
  push L (.string s)

/-- Function lua_pushboolean. -/
def lua_pushboolean (L : State) (b : Bool) : State :=
  push L (.boolean b)

/-- Function lua_pushcclosure without upvalues: a light C function. -/
def lua_pushcclosure0 (L : State) (f : CFunction) : State :=
  push L (.cfunction f)

/-- Function lua_createtable: a new empty table is pushed. -/
def lua_createtable (L : State) : State :=
  { L with
    stack := .table L.nextRef :: L.stack
    heap := Function.update L.heap L.nextRef Table.empty
    nextRef := L.nextRef + 1 }

/-- Raw read of a table field (luaH_get). -/
def rawget (L : State) (r : Nat) (k : Value) : Value :=
  (L.heap r).fields k

/-- Raw write of a table field (luaH_finishset, luaV_finishfastset). -/
def rawset (L : State) (r : Nat) (k v : Value) : State :=
  let t : Table := { (L.heap r) with fields := Function.update (L.heap r).fields k v }
  { L with heap := Function.update L.heap r t }

/-- Macro fasttm: the handler for an event in a metatable, nil when there is none. -/
def fasttm (L : State) (mt : Option Nat) (event : String) : Value :=
  match mt with
  | none => .nil
  | some m => rawget L m (.string event)

/-- Metatable of any value (the switch of luaT_gettmbyobj, lua_getmetatable). -/
def metatableOf (L : State) (o : Value) : Option Nat :=
  match o with
  | .table r => (L.heap r).metatable
  | .userdata u => L.udmeta u
  | _ => L.typemt o.type

/-- Function luaT_gettmbyobj. -/
def luaT_gettmbyobj (L : State) (o : Value) (event : String) : Value :=
  fasttm L (metatableOf L o) event

/-- Macro luaV_fastget: the slot of key k in t when t is a table and the slot is not empty. -/
def luaV_fastget (L : State) (t k : Value) : Option Value :=
  match t with
  | .table r => if rawget L r k = .nil then none else some (rawget L r k)
  | _ => none

/-- Function luaV_finishget: finish a table read through the index metamethods.
The first argument counts the remaining rounds of the loop. -/
def luaV_finishget (H : Host) : Nat → State → Value → Value → Except LuaError (Value × State)
  | 0, _, _, _ => .error .indexloop
  | n + 1, L, t, key =>
    let tm :=
      match t with
      | .table r => fasttm L (L.heap r).metatable "__index"
      | _ => luaT_gettmbyobj L t "__index"
    if tm = .nil then
      match t with
      | .table _ => .ok (.nil, L)
      | _ => .error (.optypeerror "index" t)
    else if tm.isFunction then H.callTMres tm t key L
    else
      match luaV_fastget L tm key with
      | some v => .ok (v, L)
      | none => luaV_finishget H n L tm key

/-- Function luaV_finishset: finish a table write through the newindex metamethods. -/
def luaV_finishset (H : Host) : Nat → State → Value → Value → Value → Except LuaError State
  | 0, _, _, _, _ => .error .newindexloop
  | n + 1, L, t, key, val =>
    let tm :=
      match t with
      | .table r => fasttm L (L.heap r).metatable "__newindex"
      | _ => luaT_gettmbyobj L t "__newindex"
    if tm = .nil then
      match t with
      | .table r => .ok (rawset L r key val)
      | _ => .error (.optypeerror "index" t)
    else if tm.isFunction then H.callTM tm t key val L
    else
      match tm with
      | .table r2 =>
        if rawget L r2 key = .nil then luaV_finishset H n L tm key val
        else .ok (rawset L r2 key val)
      | _ => luaV_finishset H n L tm key val

/-- Function auxgetstr of lapi.c: push t[k]; the type of the pushed value is returned.
A metamethod runs on the heap but cannot touch the slots of this frame. -/
def auxgetstr (H : Host) (L : State) (t : Value) (k : String) :
    Except LuaError (LuaType × State) :=
  match luaV_fastget L t (.string k) with
  | some v => .ok (v.type, push L v)
  | none =>
    match luaV_finishget H MAXTAGLOOP L t (.string k) with
    | .error e => .error e
    | .ok (v, L1) => .ok (v.type, { L1 with stack := v :: L.stack })

/-- Function lua_getglobal. -/
def lua_getglobal (H : Host) (L : State) (name : String) : Except LuaError (LuaType × State) :=
  auxgetstr H L (.table L.globals) name

/-- Function auxsetstr of lapi.c: t[k] = v for the value v on top, which is popped. -/
def auxsetstr (H : Host) (L : State) (t : Value) (k : String) : Except LuaError State :=
  match L.stack with
  | [] => .error .apicheck
  | v :: rest =>
    match luaV_fastget L t (.string k), t with
    | some _, .table r => .ok { rawset L r (.string k) v with stack := rest }
    | _, _ =>
      match luaV_finishset H MAXTAGLOOP L t (.string k) v with
      | .error e => .error e
      | .ok L1 => .ok { L1 with stack := rest }

/-- Function lua_setfield. -/
def lua_setfield (H : Host) (L : State) (idx : Int) (k : String) : Except LuaError State :=
  match index2value L idx with
  | none => .error .apicheck
  | some t => auxsetstr H L t k

/-- Function lua_rawgeti: push t[n] without metamethods; t must be a table. -/
def lua_rawgeti (L : State) (idx : Int) (n : Int) : Except LuaError (LuaType × State) :=
  match index2value L idx with
  | some (.table r) => .ok ((rawget L r (.integer n)).type, push L (rawget L r (.integer n)))
  | _ => .error .apicheck

/-- Function tostringbuff of lobject.c: the text of a number. -/
def tostringbuff (H : Host) : Value → Option String
  | .integer i => some (toString i)
  | .float bits =>
    let buff := H.lua_number2str bits
    if buff.data.all (fun c => c == '-' || c.isDigit) then
      some (buff ++ String.mk [H.decpoint, '0'])
    else some buff
  | _ => none

/-- Function lua_tolstring: the string at the index; a number there is first converted
in place (cvt2str).  No string for any other value. -/
def lua_tolstring (H : Host) (L : State) (idx : Int) : Except LuaError (Option String × State) :=
  match stackPos L idx with
  | none => .error .apicheck
  | some p =>
    match L.stack.get? p with
    | none => .error .apicheck
    | some (.string s) => .ok (some s, L)
    | some v =>
      match tostringbuff H v with
      | none => .ok (none, L)
      | some s => .ok (some s, { L with stack := L.stack.set p (.string s) })

/-- The C string at the start of the bytes of a Lua string: the bytes before the first
zero.  This is what C code has of a Lua string when it holds a char pointer and no length. -/
def cstr (s : String) : String :=
  String.mk (s.data.takeWhile (fun c => c != Char.ofNat 0))

/-- Function lua_type; none stands for LUA_TNONE, the type of an index that is not valid. -/
def lua_type (L : State) (idx : Int) : Option LuaType :=
  (index2value L idx).map Value.type

/-- Macro luaL_typename. -/
def luaL_typename (L : State) (idx : Int) : String :=
  match lua_type L idx with
  | none => "no value"
  | some t => lua_typename t

/-- Function luaL_getmetafield: when the object at the index has a metatable with a field
of that name which is not nil, the field is pushed and its type returned; otherwise
nothing is pushed and LUA_TNIL is returned. -/
def luaL_getmetafield (L : State) (obj : Int) (event : String) : LuaType × State :=
  match index2value L obj with
  | none => (.TNIL, L)
  | some o =>
    match metatableOf L o with
    | none => (.TNIL, L)
    | some m =>
      if rawget L m (.string event) = .nil then (.TNIL, L)
      else ((rawget L m (.string event)).type, push L (rawget L m (.string event)))

/-- Function luaL_typeerror: the argument error saying which type was expected.  The name
of the actual type is read after luaL_getmetafield, with the same index arg: when a
metafield was pushed, a negative arg then points one slot further up than before. -/
def luaL_typeerror (L : State) (arg : Int) (tname : String) : LuaError :=
  let res := luaL_getmetafield L arg "__name"
  let typearg :=
    if res.1 = .TSTRING then
      match index2value res.2 (-1) with
      | some (.string s) => cstr s
      | _ => ""
    else if lua_type res.2 arg = some .TLIGHTUSERDATA then "light userdata"
    else luaL_typename res.2 arg
  .argerror arg (tname ++ " expected, got " ++ typearg)

/-- Macro luaL_checkstring, that is luaL_checklstring with a null length pointer: the
caller gets a char pointer into the string and so the bytes before its first zero. -/
def luaL_checkstring (H : Host) (L : State) (arg : Int) : Except LuaError (String × State) :=
  match lua_tolstring H L arg with
  | .error e => .error e
  | .ok (some s, L1) => .ok (cstr s, L1)
  | .ok (none, L1) => .error (luaL_typeerror L1 arg (lua_typename .TSTRING))

/-- An entry of a luaL_Reg array; func is none for a null placeholder. -/
structure luaL_Reg where
  name : String
  func : Option CFunction
deriving DecidableEq, Repr

/-- Function luaL_setfuncs with nup = 0, over the entries before the sentinel. -/
def luaL_setfuncs (H : Host) : State → List luaL_Reg → Except LuaError State
  | L, [] => .ok L
  | L, l :: ls =>
    let L1 :=
      match l.func with
      | none => lua_pushboolean L false
      | some f => lua_pushcclosure0 L f
    match lua_setfield H L1 (-2) l.name with
    | .error e => .error e
    | .ok L2 => luaL_setfuncs H L2 ls

/-- Macro luaL_newlib: luaL_checkversion (taken to pass), luaL_newlibtable, luaL_setfuncs. -/
def luaL_newlib (H : Host) (L : State) (l : List luaL_Reg) : Except LuaError State :=
  luaL_setfuncs H (lua_createtable L) l

/-! ## Collaborators of sys.c that are not in the sources at hand -/

/-- Modelled from the spec: function error of tools.h, whose body is missing.  The spec
has a single failure path, abort with a descriptive message; the call does not return. -/
def error (what : Option String) (message : String) (L : State) : Outcome :=
  .aborted what message L

/-- Modelled from the spec: function luax_run, whose body is missing.  The spec calls it
an interpreter-load-and-run call to which control is transferred; sys.c marks the call
as one that does not return. -/
def luax_run (L : State) (exe : String) : Outcome :=
  .run L exe

/-- The string macros of luax_config.h, a header written by the build. -/
structure BuildConfig where
  LUAX_ARCH : String
  LUAX_OS : String
  LUAX_ABI : String

/-! ## sys.c -/

/-- Function sys_bootstrap of sys.c. -/
def sys_bootstrap (H : Host) (L : State) : Outcome :=
  match lua_getglobal H L "arg" with
  | .error e => .raised e
  | .ok (type, L1) =>
    if type ≠ .TTABLE then error none "Can not read arg[0]" L1
    else
      match lua_rawgeti L1 (-1) 0 with
      | .error e => .raised e
      | .ok (_, L2) =>
        match luaL_checkstring H L2 (-1) with
        | .error e => .raised e
        | .ok (exe, L3) => luax_run L3 exe

/-- Array blsyslib of sys.c, without its sentinel. -/
def blsyslib : List luaL_Reg :=
  [{ name := "bootstrap", func := some CFunction.sys_bootstrap }]

/-- Function set_string of sys.c. -/
def set_string (H : Host) (L : State) (name val : String) : Except LuaError State :=
  lua_setfield H (lua_pushstring L val) (-2) name

/-- Function luaopen_sys of sys.c. -/
def luaopen_sys (cfg : BuildConfig) (H : Host) (L : State) : Outcome :=
  match luaL_newlib H L blsyslib with
  | .error e => .raised e
  | .ok L1 =>
    match set_string H L1 "arch" cfg.LUAX_ARCH with
    | .error e => .raised e
    | .ok L2 =>
      match set_string H L2 "os" cfg.LUAX_OS with
      | .error e => .raised e
      | .ok L3 =>
        match set_string H L3 "abi" cfg.LUAX_ABI with
        | .error e => .raised e
        | .ok L4 => .returned L4 1

/-- The code behind a C function value, for those defined in sys.c. -/
def CFunction.body : CFunction → Option (Host → State → Outcome)
  | .sys_bootstrap => some Luax.sys_bootstrap
  | .foreign _ => none

/-! ## Auxiliary definitions for the statements -/

/-- The state in which luaopen_sys returns: the new table with its four fields. -/
def sysLib (cfg : BuildConfig) (L : State) : State :=
  rawset (rawset (rawset (rawset (lua_createtable L) L.nextRef (.string "bootstrap")
    (.cfunction .sys_bootstrap)) L.nextRef (.string "arch") (.string cfg.LUAX_ARCH))
    L.nextRef (.string "os") (.string cfg.LUAX_OS))
    L.nextRef (.string "abi") (.string cfg.LUAX_ABI)

/-- The C string lua_tolstring yields for a value: a string as it is, a number as its
text, nothing for any other value. -/
def stringOf (H : Host) : Value → Option String
  | .string s => some s
  | v => tostringbuff H v

/-- A run of set_string calls, one per pair of name and value, in the order of the list.
Function luaopen_sys makes three of them. -/
def set_strings (H : Host) : State → List (String × String) → Except LuaError State
  | L, [] => .ok L
  | L, p :: ps =>
    match set_string H L p.1 p.2 with
    | .error e => .error e
    | .ok L1 => set_strings H L1 ps

/-- The raw writes that a run of set_string calls amounts to on a plain table. -/
def rawsets (r : Nat) : State → List (String × String) → State
  | L, [] => L
  | L, p :: ps => rawsets r (rawset L r (.string p.1) (.string p.2)) ps

/-- The three calls of set_string in luaopen_sys, in source order. -/
def sysStrings (cfg : BuildConfig) : List (String × String) :=
  [("arch", cfg.LUAX_ARCH), ("os", cfg.LUAX_OS), ("abi", cfg.LUAX_ABI)]

/-! ### Build targets -/

/-- Modelled from the spec: the operating systems a build can target.  The header
luax_config.h that defines LUAX_OS is written by the build and is missing; the values are
those listed for sys.os in the documentation block of sys.c. -/
inductive TargetOS
  | linux | macos | windows
deriving DecidableEq, Repr

/-- Modelled from the spec: the processor architectures a build can target, as listed for
sys.arch in the documentation block of sys.c; the header defining LUAX_ARCH is missing. -/
inductive TargetArch
  | x86_64 | i386 | aarch64
deriving DecidableEq, Repr

/-- Modelled from the spec: the C libraries a build can target, as listed for sys.abi in
the documentation block of sys.c; the header defining LUAX_ABI is missing. -/
inductive TargetABI
  | musl | gnu
deriving DecidableEq, Repr

/-- A build target. -/
structure Target where
  os : TargetOS
  arch : TargetArch
  abi : TargetABI
deriving DecidableEq, Repr

/-- Modelled from the spec: the value of LUAX_OS in a build for the given system;
the platform string fields match the build target. -/
def TargetOS.name : TargetOS → String
  | .linux => "linux"
  | .macos => "macos"
  | .windows => "windows"

/-- Modelled from the spec: the value of LUAX_ARCH in a build for the given architecture. -/
def TargetArch.name : TargetArch → String
  | .x86_64 => "x86_64"
  | .i386 => "i386"
  | .aarch64 => "aarch64"

/-- Modelled from the spec: the value of LUAX_ABI in a build for the given C library. -/
def TargetABI.name : TargetABI → String
  | .musl => "musl"
  | .gnu => "gnu"

/-- Modelled from the spec: the header luax_config.h of a build for the given target. -/
def Target.config (t : Target) : BuildConfig :=
  { LUAX_ARCH := t.arch.name, LUAX_OS := t.os.name, LUAX_ABI := t.abi.name }

/-! ### Concrete hosts and states -/

/-- A host in which every metamethod that is a function does nothing and returns nil. -/
def quietHost : Host :=
  { callTMres := fun _ _ _ L => .ok (.nil, L)
    callTM := fun _ _ _ _ L => .ok L
    lua_number2str := fun _ => "0"
    decpoint := '.' }

/-- A state with an empty table of globals (table 0) and an empty stack. -/
def freshState : State :=
  { stack := [], heap := fun _ => Table.empty, nextRef := 1, globals := 0,
    udmeta := fun _ => none, typemt := fun _ => none }

/-- Give the table at a reference a metatable. -/
def withMetatable (L : State) (r : Nat) (m : Nat) : State :=
  { L with heap := Function.update L.heap r { (L.heap r) with metatable := some m } }

/-- Globals: arg = {}, an empty table (table 1). -/
def stateArgEmpty : State :=
  rawset { freshState with nextRef := 2 } 0 (.string "arg") (.table 1)

/-- Globals: arg is a table with arg[0] = "prog". -/
def stateArgProg : State :=
  rawset stateArgEmpty 1 (.integer 0) (.string "prog")

/-- Globals: arg is a table with arg[0] = 42, an integer. -/
def stateArgNum : State :=
  rawset stateArgEmpty 1 (.integer 0) (.integer 42)

/-- Globals: arg is a table with arg[0] = 42, arg[1] = "x" and arg.name = "y"; its
metatable (table 2) has an index handler (table 3) in which [0] = "shadow"; the call has
one argument, the string "ignored". -/
def stateArgBusy : State :=
  let L1 := rawset (rawset stateArgNum 1 (.integer 1) (.string "x")) 1 (.string "name") (.string "y")
  let L2 := rawset (rawset L1 2 (.string "__index") (.table 3)) 3 (.integer 0) (.string "shadow")
  { withMetatable L2 1 2 with stack := [.string "ignored"], nextRef := 4 }

/-- The table of globals has a metatable (table 1) whose index handler is the number 5;
there is no global arg. -/
def stateGlobalsIndexNumber : State :=
  withMetatable (rawset { freshState with nextRef := 2 } 1 (.string "__index") (.integer 5)) 0 1

/-- Globals: arg is a table with arg[0] a string of three bytes: a, zero, b. -/
def stateArgNul : State :=
  rawset stateArgEmpty 1 (.integer 0) (.string (String.mk ['a', Char.ofNat 0, 'b']))

/-- Globals: arg is a table with arg[0] the float 0.0 (all bits zero). -/
def stateArgFloat : State :=
  rawset stateArgEmpty 1 (.integer 0) (.float 0)

/-- The quiet host in a locale whose decimal point is a comma. -/
def commaHost : Host :=
  { quietHost with decpoint := ',' }

/-- A plain empty table (table 1) on top of the stack. -/
def statePlainTable : State :=
  { freshState with stack := [.table 1], nextRef := 2 }

/-- On top of the stack a table (table 1) whose metatable (table 2) has a newindex
handler that is itself a table (table 3). -/
def stateNewindexTable : State :=
  withMetatable (rawset { freshState with stack := [.table 1], nextRef := 4 } 2
    (.string "__newindex") (.table 3)) 1 2

/-! ## Basic facts about the API model -/

/-- A raw write leaves the stack alone. -/
theorem rawset_stack (L : State) (r : Nat) (k v : Value) :
    (rawset L r k v).stack = L.stack := rfl

/-- Reading after a raw write. -/
theorem rawget_rawset (L : State) (r r2 : Nat) (k k2 v : Value) :
    rawget (rawset L r k v) r2 k2 = if r2 = r ∧ k2 = k then v else rawget L r2 k2 := by
  unfold rawget rawset
  by_cases hr : r2 = r
  · subst hr
    by_cases hk : k2 = k
    · subst hk; simp
    · simp [Function.update_apply, hk]
  · simp [Function.update_apply, hr]

/-- A raw write changes no metatable. -/
theorem rawset_metatable (L : State) (r r2 : Nat) (k v : Value) :
    ((rawset L r k v).heap r2).metatable = (L.heap r2).metatable := by
  unfold rawset
  by_cases hr : r2 = r
  · subst hr; simp
  · simp [Function.update_apply, hr]

/-- Raw writes of one table under different keys commute. -/
theorem rawset_comm (L : State) (r : Nat) (k1 k2 v1 v2 : Value) (h : k1 ≠ k2) :
    rawset (rawset L r k1 v1) r k2 v2 = rawset (rawset L r k2 v2) r k1 v1 := by
  unfold rawset
  simp only [Function.update_same, Function.update_idem]
  rw [Function.update_comm h]

/-- A write through lua_setfield is a raw write when the key is already present in the
table or the table has no newindex handler. -/
theorem lua_setfield_raw (H : Host) (L : State) (idx : Int) (k : String) (r : Nat)
    (v : Value) (rest : List Value) (hs : L.stack = v :: rest)
    (ht : index2value L idx = some (.table r))
    (hraw : rawget L r (.string k) ≠ .nil ∨ fasttm L (L.heap r).metatable "__newindex" = .nil) :
    lua_setfield H L idx k = .ok { rawset L r (.string k) v with stack := rest } := by
  unfold lua_setfield auxsetstr
  simp only [ht, hs]
  by_cases hk : rawget L r (.string k) = .nil
  · have htm : fasttm L (L.heap r).metatable "__newindex" = .nil := by
      rcases hraw with h | h
      · exact absurd hk h
      · exact h
    simp [luaV_fastget, hk, MAXTAGLOOP, luaV_finishset, htm]
  · simp [luaV_fastget, hk]

/-- On a table that takes the write raw, set_string is the raw write of the string. -/
theorem set_string_raw (H : Host) (L : State) (name val : String) (r : Nat)
    (rest : List Value) (hs : L.stack = .table r :: rest)
    (hraw : rawget L r (.string name) ≠ .nil ∨
      fasttm L (L.heap r).metatable "__newindex" = .nil) :
    set_string H L name val = .ok (rawset L r (.string name) (.string val)) := by
  unfold set_string
  rw [lua_setfield_raw H (lua_pushstring L val) (-2) name r (.string val) (.table r :: rest)]
  · cases L
    simp only [lua_pushstring, push, rawset] at *
    simp [hs]
  · simp [lua_pushstring, push, hs]
  · simp [index2value, stackPos, lua_pushstring, push, hs]
  · exact hraw

/-- The table luaL_newlib makes from blsyslib. -/
theorem luaL_newlib_blsyslib (H : Host) (L : State) :
    luaL_newlib H L blsyslib = .ok (rawset (lua_createtable L) L.nextRef
      (.string "bootstrap") (.cfunction .sys_bootstrap)) := by
  unfold luaL_newlib blsyslib
  simp only [luaL_setfuncs]
  rw [lua_setfield_raw H _ (-2) "bootstrap" L.nextRef (.cfunction .sys_bootstrap)
    (.table L.nextRef :: L.stack)]
  · cases L
    simp [lua_pushcclosure0, push, rawset, lua_createtable]
  · simp [lua_pushcclosure0, push, lua_createtable]
  · simp [index2value, stackPos, lua_pushcclosure0, push, lua_createtable]
  · right
    simp [lua_pushcclosure0, push, lua_createtable, fasttm, Table.empty]

/-- The outcome of luaopen_sys, in closed form. -/
theorem luaopen_sys_eq (cfg : BuildConfig) (H : Host) (L : State) :
    luaopen_sys cfg H L = .returned (sysLib cfg L) 1 := by
  have hmt : ∀ (S : State) (k v : Value),
      ((rawset S L.nextRef k v).heap L.nextRef).metatable = (S.heap L.nextRef).metatable :=
    fun S k v => rawset_metatable S L.nextRef L.nextRef k v
  have h0 : ((lua_createtable L).heap L.nextRef).metatable = none := by
    simp [lua_createtable, Table.empty]
  unfold luaopen_sys
  rw [luaL_newlib_blsyslib]
  simp only []
  rw [set_string_raw H _ "arch" cfg.LUAX_ARCH L.nextRef L.stack]
  · simp only []
    rw [set_string_raw H _ "os" cfg.LUAX_OS L.nextRef L.stack]
    · simp only []
      rw [set_string_raw H _ "abi" cfg.LUAX_ABI L.nextRef L.stack]
      · rfl
      · simp [rawset_stack, lua_createtable]
      · right; simp [hmt, h0, fasttm]
    · simp [rawset_stack, lua_createtable]
    · right; simp [hmt, h0, fasttm]
  · simp [rawset_stack, lua_createtable]
  · right; simp [hmt, h0, fasttm]

/-! ## Facts about C strings -/

/-- A string without a zero byte is its own C string. -/
theorem cstr_eq_self (s : String) (h : ∀ c ∈ s.data, c ≠ Char.ofNat 0) : cstr s = s := by
  unfold cstr
  have hw : s.data.takeWhile (fun c => c != Char.ofNat 0) = s.data := by
    rw [List.takeWhile_eq_self_iff]
    intro c hc
    simpa using h c hc
  rw [hw]

/-- No decimal digit is the zero byte. -/
theorem digitChar_ne_zero : ∀ n, n < 10 → Nat.digitChar n ≠ Char.ofNat 0 := by
  decide

/-- The digits of a number hold no zero byte. -/
theorem toDigitsCore_no_zero (fuel n : Nat) (ds : List Char)
    (h : ∀ c ∈ ds, c ≠ Char.ofNat 0) :
    ∀ c ∈ Nat.toDigitsCore 10 fuel n ds, c ≠ Char.ofNat 0 := by
  induction fuel generalizing n ds with
  | zero => simpa [Nat.toDigitsCore] using h
  | succ f ih =>
    have hd : ∀ c ∈ Nat.digitChar (n % 10) :: ds, c ≠ Char.ofNat 0 := by
      intro c hc
      rcases List.mem_cons.mp hc with h1 | h1
      · rw [h1]; exact digitChar_ne_zero _ (Nat.mod_lt _ (by decide))
      · exact h c h1
    unfold Nat.toDigitsCore
    dsimp only
    split_ifs
    · exact hd
    · exact ih _ _ hd

/-- The text of a natural number holds no zero byte. -/
theorem nat_repr_no_zero (n : Nat) : ∀ c ∈ (Nat.repr n).data, c ≠ Char.ofNat 0 := by
  unfold Nat.repr Nat.toDigits
  simpa [List.asString] using toDigitsCore_no_zero (n + 1) n [] (by simp)

/-- The text of an integer holds no zero byte. -/
theorem int_toString_no_zero (i : Int) : ∀ c ∈ (toString i).data, c ≠ Char.ofNat 0 := by
  cases i with
  | ofNat m => exact nat_repr_no_zero m
  | negSucc m =>
    intro c hc
    have hrepr : toString (Int.negSucc m) = "-" ++ Nat.repr (m + 1) := rfl
    rw [hrepr] at hc
    simp only [String.data_append, List.mem_append] at hc
    rcases hc with h | h
    · simp at h; rw [h]; decide
    · exact nat_repr_no_zero _ c h

/-! ## Facts about sys_bootstrap -/

/-- A successful lua_getglobal pushes exactly one value, whose type it returns. -/
theorem lua_getglobal_stack (H : Host) (L L1 : State) (name : String) (ty : LuaType)
    (hg : lua_getglobal H L name = .ok (ty, L1)) :
    ∃ v, v.type = ty ∧ L1.stack = v :: L.stack := by
  unfold lua_getglobal auxgetstr at hg
  split at hg
  · rename_i v _
    simp only [Except.ok.injEq, Prod.mk.injEq] at hg
    exact ⟨v, hg.1, by rw [← hg.2]; rfl⟩
  · split at hg
    · exact absurd hg (by simp)
    · rename_i v L2 _
      simp only [Except.ok.injEq, Prod.mk.injEq] at hg
      exact ⟨v, hg.1, by rw [← hg.2]⟩

/-- Reading a global is a raw read of the table of globals when the name is present in
that table or the table has no index handler. -/
theorem lua_getglobal_raw (H : Host) (L : State) (name : String)
    (hraw : rawget L L.globals (.string name) ≠ .nil ∨
      fasttm L (L.heap L.globals).metatable "__index" = .nil) :
    lua_getglobal H L name =
      .ok ((rawget L L.globals (.string name)).type,
        push L (rawget L L.globals (.string name))) := by
  unfold lua_getglobal auxgetstr
  by_cases hk : rawget L L.globals (.string name) = .nil
  · have htm : fasttm L (L.heap L.globals).metatable "__index" = .nil := by
      rcases hraw with h | h
      · exact absurd hk h
      · exact h
    simp [luaV_fastget, hk, MAXTAGLOOP, luaV_finishget, htm, push, Value.type]
  · simp [luaV_fastget, hk]

/-- The string check on a value that was just pushed. -/
theorem luaL_checkstring_top (H : Host) (L : State) (v : Value) :
    luaL_checkstring H (push L v) (-1) =
      match stringOf H v with
      | some s => .ok (cstr s, push L (.string s))
      | none => .error (luaL_typeerror (push L v) (-1) (lua_typename .TSTRING)) := by
  have hp : stackPos (push L v) (-1) = some 0 := by simp [stackPos, push]
  unfold luaL_checkstring lua_tolstring
  rw [hp]
  cases v <;> simp [push, stringOf, tostringbuff]
  split_ifs <;> simp

/-- Past the type test, sys_bootstrap is the string check on the raw entry 0. -/
theorem sys_bootstrap_table (H : Host) (L L1 : State) (r : Nat) (rest : List Value)
    (hg : lua_getglobal H L "arg" = .ok (.TTABLE, L1)) (hs : L1.stack = .table r :: rest) :
    sys_bootstrap H L =
      match stringOf H (rawget L1 r (.integer 0)) with
      | some s => luax_run (push L1 (.string s)) (cstr s)
      | none => .raised (luaL_typeerror (push L1 (rawget L1 r (.integer 0))) (-1)
          (lua_typename .TSTRING)) := by
  have hi : index2value L1 (-1) = some (.table r) := by simp [index2value, stackPos, hs]
  unfold sys_bootstrap
  simp only [hg, lua_rawgeti, hi, luaL_checkstring_top]
  cases stringOf H (rawget L1 r (.integer 0)) <;> simp

/-- When reading the global gives no table, sys_bootstrap ends in the call of error. -/
theorem sys_bootstrap_nontable (H : Host) (L L1 : State) (ty : LuaType)
    (hg : lua_getglobal H L "arg" = .ok (ty, L1)) (hty : ty ≠ .TTABLE) :
    sys_bootstrap H L = .aborted none "Can not read arg[0]" L1 := by
  unfold sys_bootstrap
  simp [hg, hty, error]

/-- With a table stored under arg in the table of globals, sys_bootstrap is the string
check on the raw entry 0 of that table. -/
theorem sys_bootstrap_raw_table (H : Host) (L : State) (r : Nat)
    (harg : rawget L L.globals (.string "arg") = .table r) :
    sys_bootstrap H L =
      match stringOf H (rawget L r (.integer 0)) with
      | some s => luax_run (push (push L (.table r)) (.string s)) (cstr s)
      | none => .raised (luaL_typeerror (push (push L (.table r)) (rawget L r (.integer 0)))
          (-1) (lua_typename .TSTRING)) := by
  have hg := lua_getglobal_raw H L "arg" (Or.inl (by rw [harg]; simp))
  rw [harg] at hg
  exact sys_bootstrap_table H L (push L (.table r)) r L.stack hg rfl

/-- The text of a value does not depend on the host unless the value is a float. -/
theorem stringOf_host (H H2 : Host) (v : Value)
    (hfmt : ∀ bits, v = .float bits →
      H.lua_number2str bits = H2.lua_number2str bits ∧ H.decpoint = H2.decpoint) :
    stringOf H v = stringOf H2 v := by
  cases v <;> try rfl
  rename_i bits
  obtain ⟨h1, h2⟩ := hfmt bits rfl
  simp only [stringOf, tostringbuff, h1, h2]

/-- The name handed to luax_run when the global arg is a table stored in the table of
globals. -/
theorem sys_bootstrap_exeName (H : Host) (L : State) (r : Nat)
    (harg : rawget L L.globals (.string "arg") = .table r) :
    exeName (sys_bootstrap H L) = (stringOf H (rawget L r (.integer 0))).map cstr := by
  rw [sys_bootstrap_raw_table H L r harg]
  cases stringOf H (rawget L r (.integer 0)) <;> rfl

/-- The four ways in which sys_bootstrap can end. -/
theorem sys_bootstrap_cases (H : Host) (L : State) :
    (∃ L1, sys_bootstrap H L = error none "Can not read arg[0]" L1) ∨
      (∃ e, lua_getglobal H L "arg" = .error e ∧ sys_bootstrap H L = .raised e) ∨
      (∃ L2, sys_bootstrap H L = .raised (luaL_typeerror L2 (-1) (lua_typename .TSTRING))) ∨
      (∃ L3 exe, sys_bootstrap H L = luax_run L3 exe) := by
  cases hg : lua_getglobal H L "arg" with
  | error e =>
    refine Or.inr (Or.inl ⟨e, rfl, ?_⟩)
    unfold sys_bootstrap
    simp [hg]
  | ok res =>
    obtain ⟨ty, L1⟩ := res
    by_cases hty : ty = .TTABLE
    · subst hty
      obtain ⟨v, hv, hst⟩ := lua_getglobal_stack H L L1 "arg" _ hg
      cases v <;> simp [Value.type] at hv
      rename_i r
      have h := sys_bootstrap_table H L L1 r L.stack hg hst
      cases hso : stringOf H (rawget L1 r (.integer 0)) with
      | none =>
        rw [hso] at h
        exact Or.inr (Or.inr (Or.inl ⟨_, h⟩))
      | some s =>
        rw [hso] at h
        exact Or.inr (Or.inr (Or.inr ⟨_, _, h⟩))
    · exact Or.inl ⟨L1, sys_bootstrap_nontable H L L1 ty hg hty⟩

/-- The argument error for a nil on top of the stack, when nil values have no metatable
naming their type. -/
theorem luaL_typeerror_nil (L : State) (tname : String)
    (hnm : fasttm L (L.typemt .TNIL) "__name" = .nil) :
    luaL_typeerror (push L .nil) (-1) tname =
      .argerror (-1) (tname ++ " expected, got " ++ "nil") := by
  have hi : index2value (push L .nil) (-1) = some .nil := by
    simp [index2value, stackPos, push]
  have hmf : luaL_getmetafield (push L .nil) (-1) "__name" = (.TNIL, push L .nil) := by
    unfold luaL_getmetafield
    rw [hi]
    cases hm : L.typemt .TNIL with
    | none => simp [metatableOf, Value.type, push, hm]
    | some m =>
      have hr : rawget L m (.string "__name") = .nil := by simpa [fasttm, hm] using hnm
      have hr2 : rawget (push L .nil) m (.string "__name") = .nil := hr
      simp [metatableOf, Value.type, push, hm, hr2]
      exact hr
  unfold luaL_typeerror
  simp only [hmf]
  simp [luaL_typename, lua_type, hi, Value.type, lua_typename]

/-! ## Claims about sys_bootstrap -/

/-- C3, as the code has it: in every state in which the global arg is a table whose raw
entry 0 is nil, sys_bootstrap fails with a descriptive message, but not on the path taken
for a missing table: error of tools.h is not called; luaL_checkstring raises the Lua
argument error of luaL_typeerror for stack index -1 and the expected type string.  Its
message is "string expected, got nil" unless nil values have a metatable with a field
__name; it always starts with "string expected, got ".  The function luax_run is not
called. -/
theorem sys_bootstrap_arg0_nil (H : Host) (L : State) (r : Nat)
    (harg : rawget L L.globals (.string "arg") = .table r)
    (he : rawget L r (.integer 0) = .nil) :
    sys_bootstrap H L =
        .raised (luaL_typeerror (push (push L (.table r)) .nil) (-1) (lua_typename .TSTRING)) ∧
      (fasttm L (L.typemt .TNIL) "__name" = .nil →
        sys_bootstrap H L = .raised (.argerror (-1) "string expected, got nil")) ∧
      (∃ got, sys_bootstrap H L = .raised (.argerror (-1) ("string expected, got " ++ got))) ∧
      (∀ w m S, sys_bootstrap H L ≠ .aborted w m S) ∧
      luaxRunCalls (sys_bootstrap H L) = [] := by
  have h := sys_bootstrap_raw_table H L r harg
  rw [he] at h
  simp only [stringOf, tostringbuff] at h
  refine ⟨h, ?_, ?_, ?_, ?_⟩
  · intro hnm
    rw [h, luaL_typeerror_nil (push L (.table r)) _ hnm]
    rfl
  · exact ⟨_, h⟩
  · intro w m S hc
    rw [h] at hc
    exact Outcome.noConfusion hc
  · rw [h]; rfl

/-- An instance: the global arg is an empty table. -/
theorem sys_bootstrap_arg0_nil_witness :
    rawget stateArgEmpty stateArgEmpty.globals (.string "arg") = .table 1 ∧
      rawget stateArgEmpty 1 (.integer 0) = .nil ∧
      (sys_bootstrap quietHost stateArgEmpty =
          .raised (luaL_typeerror (push (push stateArgEmpty (.table 1)) .nil) (-1)
            (lua_typename .TSTRING)) ∧
        (fasttm stateArgEmpty (stateArgEmpty.typemt .TNIL) "__name" = .nil →
          sys_bootstrap quietHost stateArgEmpty =
            .raised (.argerror (-1) "string expected, got nil")) ∧
        (∃ got, sys_bootstrap quietHost stateArgEmpty =
          .raised (.argerror (-1) ("string expected, got " ++ got))) ∧
        (∀ w m S, sys_bootstrap quietHost stateArgEmpty ≠ .aborted w m S) ∧
        luaxRunCalls (sys_bootstrap quietHost stateArgEmpty) = []) ∧
      sys_bootstrap quietHost stateArgEmpty =
        .raised (.argerror (-1) "string expected, got nil") :=
  ⟨rfl, rfl, sys_bootstrap_arg0_nil quietHost stateArgEmpty 1 rfl rfl,
    (sys_bootstrap_arg0_nil quietHost stateArgEmpty 1 rfl rfl).2.1 rfl⟩

/-- C3 as stated fails: with arg an empty table, the failure is the Lua argument error of
the string check, not the abort with "Can not read arg[0]" that a missing table gets. -/
theorem sys_bootstrap_arg0_nil_other_path :
    sys_bootstrap quietHost stateArgEmpty =
        .raised (.argerror (-1) "string expected, got nil") ∧
      (∀ w m S, sys_bootstrap quietHost stateArgEmpty ≠ .aborted w m S) ∧
      sys_bootstrap quietHost freshState =
        .aborted none "Can not read arg[0]" (push freshState .nil) := by
  have h : sys_bootstrap quietHost stateArgEmpty =
      .raised (.argerror (-1) "string expected, got nil") := rfl
  refine ⟨h, ?_, rfl⟩
  intro w m S hc
  rw [h] at hc
  exact Outcome.noConfusion hc

/-- C4, as the code has it: in every state in which the global arg is a table whose raw
entry 0 is a string s, sys_bootstrap calls luax_run once, on the same state (now holding
the table and s on its stack), with exe the C string at s: the bytes of s before its
first zero byte, hence s itself when s holds no zero byte.  It neither aborts nor raises
an error. -/
theorem sys_bootstrap_runs_arg0 (H : Host) (L : State) (r : Nat) (s : String)
    (harg : rawget L L.globals (.string "arg") = .table r)
    (he : rawget L r (.integer 0) = .string s) :
    sys_bootstrap H L = luax_run (push (push L (.table r)) (.string s)) (cstr s) ∧
      luaxRunCalls (sys_bootstrap H L) = [(push (push L (.table r)) (.string s), cstr s)] ∧
      ((∀ c ∈ s.data, c ≠ Char.ofNat 0) →
        sys_bootstrap H L = luax_run (push (push L (.table r)) (.string s)) s) ∧
      (∀ w m S, sys_bootstrap H L ≠ .aborted w m S) ∧
      (∀ e, sys_bootstrap H L ≠ .raised e) := by
  have h := sys_bootstrap_raw_table H L r harg
  rw [he] at h
  simp only [stringOf] at h
  refine ⟨h, ?_, ?_, ?_, ?_⟩
  · rw [h]; rfl
  · intro hz
    rw [h, cstr_eq_self s hz]
  · intro w m S hc
    rw [h] at hc
    exact Outcome.noConfusion hc
  · intro e hc
    rw [h] at hc
    exact Outcome.noConfusion hc

/-- An instance: the global arg is a table with arg[0] = "prog". -/
theorem sys_bootstrap_runs_arg0_witness :
    rawget stateArgProg stateArgProg.globals (.string "arg") = .table 1 ∧
      rawget stateArgProg 1 (.integer 0) = .string "prog" ∧
      cstr "prog" = "prog" ∧
      (sys_bootstrap quietHost stateArgProg =
          luax_run (push (push stateArgProg (.table 1)) (.string "prog")) (cstr "prog") ∧
        luaxRunCalls (sys_bootstrap quietHost stateArgProg) =
          [(push (push stateArgProg (.table 1)) (.string "prog"), cstr "prog")] ∧
        ((∀ c ∈ "prog".data, c ≠ Char.ofNat 0) →
          sys_bootstrap quietHost stateArgProg =
            luax_run (push (push stateArgProg (.table 1)) (.string "prog")) "prog") ∧
        (∀ w m S, sys_bootstrap quietHost stateArgProg ≠ .aborted w m S) ∧
        (∀ e, sys_bootstrap quietHost stateArgProg ≠ .raised e)) ∧
      sys_bootstrap quietHost stateArgProg =
        luax_run (push (push stateArgProg (.table 1)) (.string "prog")) "prog" :=
  ⟨rfl, rfl, rfl, sys_bootstrap_runs_arg0 quietHost stateArgProg 1 "prog" rfl rfl,
    (sys_bootstrap_runs_arg0 quietHost stateArgProg 1 "prog" rfl rfl).2.2.1 (by decide)⟩

/-- C4 as stated fails: with arg[0] the three bytes a, zero, b, luax_run is given the
C string "a", not the string stored at arg[0]. -/
theorem sys_bootstrap_arg0_with_zero_byte :
    rawget stateArgNul stateArgNul.globals (.string "arg") = .table 1 ∧
      rawget stateArgNul 1 (.integer 0) = .string (String.mk ['a', Char.ofNat 0, 'b']) ∧
      exeName (sys_bootstrap quietHost stateArgNul) = some "a" ∧
      exeName (sys_bootstrap quietHost stateArgNul) ≠
        some (String.mk ['a', Char.ofNat 0, 'b']) := by
  have h : exeName (sys_bootstrap quietHost stateArgNul) = some "a" := by decide
  refine ⟨rfl, rfl, h, ?_⟩
  rw [h]
  decide

/-- C8, as the code has it: sys_bootstrap never returns to its caller.  In every state it
ends in one of four ways: the abort through error of tools.h; a Lua error raised while
the global arg is read (by an index metamethod of the table of globals); the argument
error of the string check; or the call of luax_run, which does not return.  No path
reaches the end of the function with a return value. -/
theorem sys_bootstrap_never_returns (H : Host) (L : State) :
    (∀ S n, sys_bootstrap H L ≠ .returned S n) ∧
      ((∃ L1, sys_bootstrap H L = error none "Can not read arg[0]" L1) ∨
        (∃ e, lua_getglobal H L "arg" = .error e ∧ sys_bootstrap H L = .raised e) ∨
        (∃ L2, sys_bootstrap H L =
          .raised (luaL_typeerror L2 (-1) (lua_typename .TSTRING))) ∨
        (∃ L3 exe, sys_bootstrap H L = luax_run L3 exe)) := by
  refine ⟨?_, sys_bootstrap_cases H L⟩
  intro S n hc
  rcases sys_bootstrap_cases H L with ⟨L1, h⟩ | ⟨e, _, h⟩ | ⟨L2, h⟩ | ⟨L3, exe, h⟩ <;>
    · rw [h] at hc
      exact Outcome.noConfusion hc

/-- C8 as stated fails: when the table of globals has a metatable whose index handler is
a number and there is no global arg, reading the global raises a Lua error (attempt to
index a number value); that is none of the abort, the argument error of the string check
and the call of luax_run. -/
theorem sys_bootstrap_error_reading_global :
    sys_bootstrap quietHost stateGlobalsIndexNumber =
        .raised (.optypeerror "index" (.integer 5)) ∧
      ¬ ((∃ w m S, sys_bootstrap quietHost stateGlobalsIndexNumber = .aborted w m S) ∨
        (∃ a m, sys_bootstrap quietHost stateGlobalsIndexNumber = .raised (.argerror a m)) ∨
        (∃ S exe, sys_bootstrap quietHost stateGlobalsIndexNumber = luax_run S exe)) := by
  have h : sys_bootstrap quietHost stateGlobalsIndexNumber =
      .raised (.optypeerror "index" (.integer 5)) := rfl
  refine ⟨h, ?_⟩
  rw [h]
  rintro (⟨w, m, S, hc⟩ | ⟨a, m, hc⟩ | ⟨S, exe, hc⟩)
  · exact Outcome.noConfusion hc
  · exact LuaError.noConfusion (Outcome.raised.inj hc)
  · exact Outcome.noConfusion hc

/-- C10, as the code has it: the executable name depends only on the raw entry of the
table arg at the integer key 0 and, when that entry is a float, on how the C library
writes the float (snprintf and the decimal point of the locale).  Two calls, in any two
states and under any two hosts that write that float alike, whose arg tables agree on the
raw entry hand the same name to luax_run (or both hand none), whatever the metatables of
the tables, their other keys and the arguments on the stack.  The name is the C string at
the string lua_tolstring makes of the entry.  A number at key 0 is accepted: luax_run
gets its text, for an integer its decimal text. -/
theorem sys_bootstrap_exe_from_raw_entry (H H2 : Host) (L M : State) (r q : Nat)
    (harg : rawget L L.globals (.string "arg") = .table r)
    (harg2 : rawget M M.globals (.string "arg") = .table q)
    (he : rawget L r (.integer 0) = rawget M q (.integer 0))
    (hfmt : ∀ bits, rawget L r (.integer 0) = .float bits →
      H.lua_number2str bits = H2.lua_number2str bits ∧ H.decpoint = H2.decpoint) :
    exeName (sys_bootstrap H L) = exeName (sys_bootstrap H2 M) ∧
      exeName (sys_bootstrap H L) = (stringOf H (rawget L r (.integer 0))).map cstr ∧
      (∀ i : Int, rawget L r (.integer 0) = .integer i →
        sys_bootstrap H L =
          luax_run (push (push L (.table r)) (.string (toString i))) (toString i)) ∧
      (∀ v, rawget L r (.integer 0) = v → v.type = .TNUMBER →
        ∃ s, tostringbuff H v = some s ∧
          sys_bootstrap H L = luax_run (push (push L (.table r)) (.string s)) (cstr s)) := by
  have h := sys_bootstrap_raw_table H L r harg
  refine ⟨?_, sys_bootstrap_exeName H L r harg, ?_, ?_⟩
  · rw [sys_bootstrap_exeName H L r harg, sys_bootstrap_exeName H2 M q harg2, ← he,
      stringOf_host H H2 _ hfmt]
  · intro i hi
    rw [h, hi]
    simp only [stringOf, tostringbuff]
    rw [cstr_eq_self _ (int_toString_no_zero i)]
  · intro v hv hnum
    rw [hv] at h
    cases v <;> simp [Value.type] at hnum
    · exact ⟨_, rfl, h⟩
    · rename_i bits
      cases hb : tostringbuff H (.float bits) with
      | none =>
        exfalso
        simp only [tostringbuff] at hb
        split_ifs at hb
      | some s =>
        refine ⟨s, rfl, ?_⟩
        rw [h]
        simp only [stringOf, hb]

/-- An instance: two states with arg[0] = 42, run under hosts with different decimal
points; in the second state the table arg also has other keys and a metatable whose index
handler holds another entry 0, and the call has an argument.  Both hand "42" to
luax_run. -/
theorem sys_bootstrap_exe_from_raw_entry_witness :
    rawget stateArgNum stateArgNum.globals (.string "arg") = .table 1 ∧
      rawget stateArgBusy stateArgBusy.globals (.string "arg") = .table 1 ∧
      rawget stateArgNum 1 (.integer 0) = rawget stateArgBusy 1 (.integer 0) ∧
      exeName (sys_bootstrap commaHost stateArgBusy) = some "42" ∧
      fasttm stateArgBusy (stateArgBusy.heap 1).metatable "__index" = .table 3 ∧
      rawget stateArgBusy 3 (.integer 0) = .string "shadow" ∧
      (exeName (sys_bootstrap quietHost stateArgNum) =
          exeName (sys_bootstrap commaHost stateArgBusy) ∧
        exeName (sys_bootstrap quietHost stateArgNum) =
          (stringOf quietHost (rawget stateArgNum 1 (.integer 0))).map cstr ∧
        (∀ i : Int, rawget stateArgNum 1 (.integer 0) = .integer i →
          sys_bootstrap quietHost stateArgNum =
            luax_run (push (push stateArgNum (.table 1)) (.string (toString i)))
              (toString i)) ∧
        (∀ v, rawget stateArgNum 1 (.integer 0) = v → v.type = .TNUMBER →
          ∃ s, tostringbuff quietHost v = some s ∧
            sys_bootstrap quietHost stateArgNum =
              luax_run (push (push stateArgNum (.table 1)) (.string s)) (cstr s))) ∧
      sys_bootstrap quietHost stateArgNum =
        luax_run (push (push stateArgNum (.table 1)) (.string "42")) "42" :=
  ⟨rfl, rfl, rfl, rfl, rfl, rfl,
    sys_bootstrap_exe_from_raw_entry quietHost commaHost stateArgNum stateArgBusy 1 1
      rfl rfl rfl (fun _ hb => Value.noConfusion hb),
    (sys_bootstrap_exe_from_raw_entry quietHost commaHost stateArgNum stateArgBusy 1 1
      rfl rfl rfl (fun _ hb => Value.noConfusion hb)).2.2.1 42 rfl⟩

/-- C10 as stated fails: with arg[0] the float 0.0, the name handed to luax_run is "0.0"
in a locale whose decimal point is a point and "0,0" in one where it is a comma; the
state is the same, so the name does not depend on the raw entry alone. -/
theorem sys_bootstrap_float_entry_locale :
    rawget stateArgFloat 1 (.integer 0) = .float 0 ∧
      exeName (sys_bootstrap quietHost stateArgFloat) = some "0.0" ∧
      exeName (sys_bootstrap commaHost stateArgFloat) = some "0,0" ∧
      exeName (sys_bootstrap quietHost stateArgFloat) ≠
        exeName (sys_bootstrap commaHost stateArgFloat) := by
  have h1 : exeName (sys_bootstrap quietHost stateArgFloat) = some "0.0" := by decide
  have h2 : exeName (sys_bootstrap commaHost stateArgFloat) = some "0,0" := by decide
  refine ⟨rfl, h1, h2, ?_⟩
  rw [h1, h2]
  decide

/-! ## Facts about set_string and luaopen_sys -/

/-- Raw writes leave the stack alone. -/
theorem rawsets_stack (r : Nat) (l : List (String × String)) (L : State) :
    (rawsets r L l).stack = L.stack := by
  induction l generalizing L with
  | nil => rfl
  | cons p ps ih => simp [rawsets, ih, rawset_stack]

/-- On a table without a metatable a run of set_string calls is a run of raw writes. -/
theorem set_strings_raw (H : Host) (r : Nat) (rest : List Value) (l : List (String × String))
    (L : State) (hs : L.stack = .table r :: rest) (hm : (L.heap r).metatable = none) :
    set_strings H L l = .ok (rawsets r L l) := by
  induction l generalizing L with
  | nil => rfl
  | cons p ps ih =>
    have h1 := set_string_raw H L p.1 p.2 r rest hs (Or.inr (by simp [hm, fasttm]))
    simp only [set_strings, h1, rawsets]
    exact ih _ (by rw [rawset_stack]; exact hs) (by rw [rawset_metatable]; exact hm)

/-- Raw writes under distinct names can be made in any order. -/
theorem rawsets_perm (r : Nat) (l l2 : List (String × String)) (hp : l.Perm l2)
    (hn : (l.map Prod.fst).Nodup) (L : State) :
    rawsets r L l = rawsets r L l2 := by
  induction hp generalizing L with
  | nil => rfl
  | cons x _ ih =>
    simp only [rawsets]
    exact ih (List.nodup_cons.mp hn).2 _
  | swap x y l =>
    simp only [rawsets]
    have hne : y.1 ≠ x.1 := by
      intro hc
      simp [hc] at hn
    rw [rawset_comm L r (.string y.1) (.string x.1) (.string y.2) (.string x.2)
      (by simpa using hne)]
  | trans h1 _ ih1 ih2 =>
    rw [ih1 hn, ih2 ((h1.map Prod.fst).nodup_iff.mp hn)]

/-- The state luaopen_sys returns in, as raw writes in source order. -/
theorem sysLib_eq_rawsets (cfg : BuildConfig) (L : State) :
    sysLib cfg L = rawsets L.nextRef (rawset (lua_createtable L) L.nextRef
      (.string "bootstrap") (.cfunction .sys_bootstrap)) (sysStrings cfg) := rfl

/-- The stack luaopen_sys returns with. -/
theorem sysLib_stack (cfg : BuildConfig) (L : State) :
    (sysLib cfg L).stack = .table L.nextRef :: L.stack := rfl

/-- The fields of the table luaopen_sys returns. -/
theorem sysLib_rawget (cfg : BuildConfig) (L : State) (k : Value) :
    rawget (sysLib cfg L) L.nextRef k =
      if k = .string "abi" then .string cfg.LUAX_ABI
      else if k = .string "os" then .string cfg.LUAX_OS
      else if k = .string "arch" then .string cfg.LUAX_ARCH
      else if k = .string "bootstrap" then .cfunction .sys_bootstrap
      else .nil := by
  have h0 : rawget (lua_createtable L) L.nextRef k = .nil := by
    simp [rawget, lua_createtable, Table.empty]
  simp only [sysLib, rawget_rawset, h0, true_and]

/-! ## Claims about luaopen_sys and set_string -/

/-- C1: in every state luaopen_sys returns 1, and the table it leaves on top of the stack
has the string fields arch, os and abi equal to LUAX_ARCH, LUAX_OS and LUAX_ABI, each
field holding its own constant. -/
theorem luaopen_sys_platform_fields (cfg : BuildConfig) (H : Host) (L : State) :
    ∃ L1 r, luaopen_sys cfg H L = .returned L1 1 ∧
      L1.stack = .table r :: L.stack ∧
      rawget L1 r (.string "arch") = .string cfg.LUAX_ARCH ∧
      rawget L1 r (.string "os") = .string cfg.LUAX_OS ∧
      rawget L1 r (.string "abi") = .string cfg.LUAX_ABI := by
  refine ⟨sysLib cfg L, L.nextRef, luaopen_sys_eq cfg H L, sysLib_stack cfg L, ?_, ?_, ?_⟩ <;>
    · rw [sysLib_rawget]
      simp

/-- C5: the table returned by luaopen_sys has exactly the keys bootstrap, arch, os and
abi; bootstrap is bound to the C function sys_bootstrap and is the only field holding a
function; the other three hold strings; the table has no metatable. -/
theorem luaopen_sys_key_set (cfg : BuildConfig) (H : Host) (L : State) :
    ∃ L1 r, luaopen_sys cfg H L = .returned L1 1 ∧
      L1.stack = .table r :: L.stack ∧
      (∀ k, rawget L1 r k ≠ .nil ↔
        k = .string "bootstrap" ∨ k = .string "arch" ∨ k = .string "os" ∨ k = .string "abi") ∧
      rawget L1 r (.string "bootstrap") = .cfunction .sys_bootstrap ∧
      CFunction.body .sys_bootstrap = some sys_bootstrap ∧
      (∀ k, (rawget L1 r k).type = .TFUNCTION ↔ k = .string "bootstrap") ∧
      (rawget L1 r (.string "arch")).type = .TSTRING ∧
      (rawget L1 r (.string "os")).type = .TSTRING ∧
      (rawget L1 r (.string "abi")).type = .TSTRING ∧
      (L1.heap r).metatable = none := by
  refine ⟨sysLib cfg L, L.nextRef, luaopen_sys_eq cfg H L, sysLib_stack cfg L,
    ?_, ?_, rfl, ?_, ?_, ?_, ?_, ?_⟩
  · intro k
    rw [sysLib_rawget]
    by_cases h1 : k = .string "abi"
    · simp [h1]
    · by_cases h2 : k = .string "os"
      · simp [h2]
      · by_cases h3 : k = .string "arch"
        · simp [h3]
        · by_cases h4 : k = .string "bootstrap"
          · simp [h4]
          · simp [h1, h2, h3, h4]
  · rw [sysLib_rawget]; simp
  · intro k
    rw [sysLib_rawget]
    by_cases h1 : k = .string "abi"
    · simp [h1, Value.type]
    · by_cases h2 : k = .string "os"
      · simp [h2, Value.type]
      · by_cases h3 : k = .string "arch"
        · simp [h3, Value.type]
        · by_cases h4 : k = .string "bootstrap"
          · simp [h4, Value.type]
          · simp [h1, h2, h3, h4, Value.type]
  · rw [sysLib_rawget]; simp [Value.type]
  · rw [sysLib_rawget]; simp [Value.type]
  · rw [sysLib_rawget]; simp [Value.type]
  · simp only [sysLib, rawset_metatable]
    simp [lua_createtable, Table.empty]

/-- C6: in the build for any target, sys.os is one of linux, macos and windows, sys.arch
is one of x86_64, i386 and aarch64, sys.abi is one of musl and gnu, and each is the name
of the corresponding part of the target. -/
theorem luaopen_sys_target_fields (t : Target) (H : Host) (L : State) :
    ∃ L1 r, luaopen_sys t.config H L = .returned L1 1 ∧
      L1.stack = .table r :: L.stack ∧
      rawget L1 r (.string "os") = .string t.os.name ∧
      rawget L1 r (.string "arch") = .string t.arch.name ∧
      rawget L1 r (.string "abi") = .string t.abi.name ∧
      t.os.name ∈ ["linux", "macos", "windows"] ∧
      t.arch.name ∈ ["x86_64", "i386", "aarch64"] ∧
      t.abi.name ∈ ["musl", "gnu"] := by
  refine ⟨sysLib t.config L, L.nextRef, luaopen_sys_eq t.config H L, sysLib_stack t.config L,
    ?_, ?_, ?_, ?_, ?_, ?_⟩
  · rw [sysLib_rawget]; simp [Target.config]
  · rw [sysLib_rawget]; simp [Target.config]
  · rw [sysLib_rawget]; simp [Target.config]
  · cases t.os <;> simp [TargetOS.name]
  · cases t.arch <;> simp [TargetArch.name]
  · cases t.abi <;> simp [TargetABI.name]

/-- C9, as the code has it: for every state whose stack top is a table t that takes the
write raw (t has no newindex handler, or already holds a field of that name), and every
name and val, set_string leaves the stack as it was, with t on top, t[name] is the string
val, and every other field of t is unchanged.  Consequently, the names used by luaopen_sys
being distinct and its table new, the three set_string calls made in any order give the
state luaopen_sys returns in, and luaopen_sys leaves exactly one new value on the stack. -/
theorem set_string_frame (H : Host) (L : State) (name val : String) (r : Nat)
    (rest : List Value) (hs : L.stack = .table r :: rest)
    (hraw : rawget L r (.string name) ≠ .nil ∨
      fasttm L (L.heap r).metatable "__newindex" = .nil) :
    (∃ L1, set_string H L name val = .ok L1 ∧
        L1.stack = L.stack ∧
        rawget L1 r (.string name) = .string val ∧
        (∀ k, k ≠ .string name → rawget L1 r k = rawget L r k)) ∧
      (∀ (cfg : BuildConfig) (S : State) (order : List (String × String)),
        order.Perm (sysStrings cfg) →
        ∃ S1 S4, luaL_newlib H S blsyslib = .ok S1 ∧
          set_strings H S1 order = .ok S4 ∧
          luaopen_sys cfg H S = .returned S4 1 ∧
          S4.stack = .table S.nextRef :: S.stack) := by
  constructor
  · refine ⟨_, set_string_raw H L name val r rest hs hraw, rawset_stack _ _ _ _, ?_, ?_⟩
    · simp [rawget_rawset]
    · intro k hk
      simp [rawget_rawset, hk]
  · intro cfg S order hp
    refine ⟨_, sysLib cfg S, luaL_newlib_blsyslib H S, ?_, luaopen_sys_eq cfg H S,
      sysLib_stack cfg S⟩
    rw [set_strings_raw H S.nextRef S.stack order _ (by simp [rawset_stack, lua_createtable])
      (by rw [rawset_metatable]; simp [lua_createtable, Table.empty])]
    rw [sysLib_eq_rawsets]
    congr 1
    refine rawsets_perm S.nextRef order (sysStrings cfg) hp ?_ _
    exact (hp.map Prod.fst).nodup_iff.mpr (by simp [sysStrings])

/-- An instance: a new empty table on top of the stack. -/
theorem set_string_frame_witness :
    statePlainTable.stack = [.table 1] ∧
      fasttm statePlainTable (statePlainTable.heap 1).metatable "__newindex" = .nil ∧
      ((∃ L1, set_string quietHost statePlainTable "os" "linux" = .ok L1 ∧
          L1.stack = statePlainTable.stack ∧
          rawget L1 1 (.string "os") = .string "linux" ∧
          (∀ k, k ≠ .string "os" → rawget L1 1 k = rawget statePlainTable 1 k)) ∧
        (∀ (cfg : BuildConfig) (S : State) (order : List (String × String)),
          order.Perm (sysStrings cfg) →
          ∃ S1 S4, luaL_newlib quietHost S blsyslib = .ok S1 ∧
            set_strings quietHost S1 order = .ok S4 ∧
            luaopen_sys cfg quietHost S = .returned S4 1 ∧
            S4.stack = .table S.nextRef :: S.stack)) :=
  ⟨rfl, rfl, set_string_frame quietHost statePlainTable "os" "linux" 1 [] rfl (Or.inr rfl)⟩

/-- C9 as stated fails: when the table t on top has a metatable whose newindex handler is
another table, set_string writes the field into that other table; t[name] stays nil. -/
theorem set_string_newindex_redirects :
    stateNewindexTable.stack = [.table 1] ∧
      ∃ L1, set_string quietHost stateNewindexTable "os" "linux" = .ok L1 ∧
        rawget L1 1 (.string "os") = .nil ∧
        rawget L1 1 (.string "os") ≠ .string "linux" ∧
        rawget L1 3 (.string "os") = .string "linux" :=
  ⟨rfl, _, rfl, rfl, by decide, rfl⟩

end Luax
